import Mathlib

/-!
Verification development for the psyche cross-process coordination layer.

Shallow embedding of the Python sources:
  * `psyche/vllm/transforms.py`          — rotary permutation and weight fusion
  * `psyche/vllm/protocol.py`            — tensor wire encoding (sender side)
  * `psyche/vllm/distributed_updater.py` — wire decoding and the weight-update
                                           receiver loop
  * `psyche/sidecar/__main__.py`         — sparse-result protocol and the
                                           control-plane operation loop

Tensors are modelled at the granularity each property needs: the fusion layer
works on the list of rows of a 2-D tensor (the operations only rearrange and
concatenate rows, columns are untouched), the wire metadata buffer is a total
function `Nat → Int` (torch.zeros(128) followed by in-order slice assignments),
and the sparse-result protocol is modelled on tensor shapes (its broadcast
fills contents from an external sender which is not part of this program).
-/

deriving instance DecidableEq for Except

namespace Psyche

/-- Element types that appear in the three dtype tables of the source
(`DTYPE_MAPPING` in sidecar/__main__.py, `DTYPE_MAP`/`DTYPE_TO_ID` in
vllm/distributed_updater.py and vllm/protocol.py). -/
inductive Dtype
  | uint8
  | int8
  | int16
  | int32
  | int64
  | float16
  | float32
  | float64
  | bfloat16
  | bool
deriving DecidableEq, Repr

/-- `DTYPE_MAPPING` from `sidecar/__main__.py` (torch ScalarType codes, used by
the sparse-result path): `{0: uint8, 3: int, 4: int64, 5: half, 6: float,
7: double, 11: bool, 15: bfloat16}`.  A missing key is a Python `KeyError`,
modelled as `none`. -/
def DTYPE_MAPPING (c : Int) : Option Dtype :=
  if c = 0 then some .uint8
  else if c = 3 then some .int32
  else if c = 4 then some .int64
  else if c = 5 then some .float16
  else if c = 6 then some .float32
  else if c = 7 then some .float64
  else if c = 11 then some .bool
  else if c = 15 then some .bfloat16
  else none

/-- `DTYPE_MAP` from `vllm/distributed_updater.py` (used by the live
weight-update receiver): `{0: float32, 1: float16, 2: bfloat16, 3: float64,
4: int64, 5: int32, 6: int16, 7: int8, 8: uint8}`. -/
def DTYPE_MAP (c : Int) : Option Dtype :=
  if c = 0 then some .float32
  else if c = 1 then some .float16
  else if c = 2 then some .bfloat16
  else if c = 3 then some .float64
  else if c = 4 then some .int64
  else if c = 5 then some .int32
  else if c = 6 then some .int16
  else if c = 7 then some .int8
  else if c = 8 then some .uint8
  else none

/-- `DTYPE_TO_ID` from `vllm/protocol.py` (sender side of the weight-update
wire encoding).  It is the inverse of `DTYPE_MAP`; a dtype outside the table
makes `broadcast_parameter` raise `ValueError`, modelled as `none`. -/
def DTYPE_TO_ID (dt : Dtype) : Option Int :=
  match dt with
  | .float32 => some 0
  | .float16 => some 1
  | .bfloat16 => some 2
  | .float64 => some 3
  | .int64 => some 4
  | .int32 => some 5
  | .int16 => some 6
  | .int8 => some 7
  | .uint8 => some 8
  | .bool => none

/-! ## Weight fusion layer (`vllm/transforms.py`) -/

/-- A 2-D weight tensor, modelled as its list of rows.  All operations in
`transforms.py` that we verify rearrange or concatenate whole rows (dim 0);
the column dimension is carried inside each row and never touched. -/
abbrev Rows := List (List Int)

/-- `permute_for_rotary` from `vllm/transforms.py`.

The source computes `head_dim = out_dim // n_heads`, asserts
`head_dim % 2 == 0` (modelled by the `Option` guard), then does
`weight.view(n_heads, head_dim, in_dim).view(n_heads, head_dim//2, 2, in_dim)
.transpose(1, 2).reshape(out_dim, in_dim)`.

In row-major layout this chain of views moves input row
`h*head_dim + 2*p + s` (head `h`, pair `p`, pair slot `s`) to output row
`h*head_dim + s*(head_dim/2) + p`; equivalently, output row
`i = h*head_dim + r` reads input row `h*head_dim + 2*(r % (head_dim/2)) +
r / (head_dim/2)`, which is what the map below computes. -/
def permute_for_rotary (weight : Rows) (n_heads : Nat) : Option Rows :=
  let out_dim := weight.length
  let head_dim := out_dim / n_heads
  if head_dim % 2 = 0 then
    some ((List.range out_dim).map (fun i =>
      let h := i / head_dim
      let r := i % head_dim
      let s := r / (head_dim / 2)
      let p := r % (head_dim / 2)
      weight.getD (h * head_dim + 2 * p + s) []))
  else
    none

/-- `apply_qkv_fusion` from `vllm/transforms.py`: defaults `n_kv_heads` to
`n_heads`, rotary-permutes q and k when `apply_rotary` is set, and
concatenates `[q, k, v]` along dim 0 (`torch.cat` on rows is list append). -/
def apply_qkv_fusion (q_weight k_weight v_weight : Rows) (n_heads : Nat)
    (n_kv_heads : Option Nat) (apply_rotary : Bool) : Option Rows :=
  let nkv := n_kv_heads.getD n_heads
  if apply_rotary then
    match permute_for_rotary q_weight n_heads, permute_for_rotary k_weight nkv with
    | some q2, some k2 => some (q2 ++ k2 ++ v_weight)
    | _, _ => none
  else
    some (q_weight ++ k_weight ++ v_weight)

/-- `apply_gate_up_fusion` from `vllm/transforms.py`: concatenation in order
`[gate, up]` along dim 0. -/
def apply_gate_up_fusion (gate_weight up_weight : Rows) : Rows :=
  gate_weight ++ up_weight

/-! ## Tensor wire encoding (`vllm/protocol.py` sender side,
`vllm/distributed_updater.py` receiver side)

The metadata buffer is `torch.zeros(128, dtype=torch.long)` followed by
in-order element/slice assignments; we model it as a total function
`Nat → Int` built from a zero function by pointwise stores.  All indices the
encoder writes and the decoder reads stay below 128 under the length bounds
the protocol enforces (name ≤ 100 bytes, ~20 dims); out-of-range torch
indexing errors are therefore never hit in the modelled region.

A parameter name is modelled as its UTF-8 byte string (`List Nat`, each
element < 256).  Python's `bytes.decode("utf-8")` followed by
`.rstrip("\x00")` acts on those bytes exactly as `rstripNul` below, because
in valid UTF-8 the NUL character is the single byte 0 and trailing NUL
characters are exactly trailing 0 bytes. -/

/-- The fixed-size metadata buffer (128 torch longs, indices beyond the
written region stay 0). -/
abbrev Metadata := Nat → Int

/-- The all-zeros buffer `torch.zeros(128, dtype=torch.long)`. -/
def mzero : Metadata := fun _ => 0

/-- Single element assignment `metadata[i] = v`. -/
def mset (m : Metadata) (i : Nat) (v : Int) : Metadata :=
  fun j => if j = i then v else m j

/-- Slice assignment `metadata[start : start + vs.length] = vs`, performed
left to right. -/
def msetList (m : Metadata) (start : Nat) : List Int → Metadata
  | [] => m
  | v :: vs => msetList (mset m start v) (start + 1) vs

/-- Errors `broadcast_parameter` raises before broadcasting anything:
a name longer than 100 bytes, or a dtype outside `DTYPE_TO_ID`. -/
inductive EncodeErr
  | nameTooLong
  | unsupportedDtype
deriving DecidableEq, Repr

/-- The metadata buffer built by `broadcast_parameter` in `vllm/protocol.py`:

```
metadata = torch.zeros(128); metadata[0] = 0; metadata[1] = len(name_bytes)
metadata[2 : 2+len] = name_bytes; metadata[2+len] = ndim
metadata[3+len+i] = shape[i] for each i; metadata[3+len+ndim] = dtype_id
```

with the `len > 100` check before the buffer is built and the
`dtype not in DTYPE_TO_ID` check before anything is broadcast. -/
def broadcast_parameter_metadata (param_name : List Nat) (shape : List Nat)
    (dtype : Dtype) : Except EncodeErr Metadata :=
  if 100 < param_name.length then
    .error .nameTooLong
  else
    match DTYPE_TO_ID dtype with
    | none => .error .unsupportedDtype
    | some dtype_id =>
      let m0 := mset mzero 0 0
      let m1 := mset m0 1 param_name.length
      let m2 := msetList m1 2 (param_name.map Int.ofNat)
      let m3 := mset m2 (2 + param_name.length) shape.length
      let m4 := msetList m3 (3 + param_name.length) (shape.map Int.ofNat)
      .ok (mset m4 (3 + param_name.length + shape.length) dtype_id)

/-- Result of parsing one metadata buffer in the receiver loop of
`weight_updater_process` (`vllm/distributed_updater.py`). -/
inductive DecodeResult
  | shutdown
  | invalidNameLen (len : Int)
  | unknownDtype (code : Int)
  | header (name : List Nat) (shape : List Int) (dtype : Dtype)
deriving DecidableEq, Repr

/-- Python `.rstrip("\x00")` on a byte string: drop trailing 0 bytes. -/
def rstripNul (bs : List Nat) : List Nat :=
  (bs.reverse.dropWhile (· = 0)).reverse

/-- The header parse performed by the receiver loop, in source order:

1. `shutdown_flag = metadata[0]`; `== -1` means shutdown (checked first,
   before any other field is read);
2. `param_name_len = metadata[1]`; `== 0 or > 100` is an error (the source
   check, which a negative garbage length passes);
3. name bytes `metadata[2 : 2+len]` cast through `astype(np.uint8)`
   (modelled as `% 256`), UTF-8 decoded and right-stripped of NULs;
4. `ndim = int(metadata[2+len])`, then `ndim` shape entries (Python
   `range(ndim)` of a negative value is empty, matching `Int.toNat`);
5. `dtype_id = metadata[3+len+ndim]`, rejected when not in `DTYPE_MAP`.

Buffer positions are computed with `Int.toNat`, which clamps a negative
garbage `len` or `ndim` to 0, whereas torch indexing would wrap a negative
index around the 128-slot buffer; every verified claim either fixes a
well-formed header (C4) or exits before these fields are read (C5), so the
clamp-versus-wrap corner is outside all stated properties. -/
def decode_header (m : Metadata) : DecodeResult :=
  if m 0 = -1 then
    .shutdown
  else
    let len := m 1
    if len = 0 ∨ 100 < len then
      .invalidNameLen len
    else
      let n := len.toNat
      let rawName := (List.range n).map fun i => (m (2 + i) % 256).toNat
      let param_name := rstripNul rawName
      let ndim := (m (2 + n)).toNat
      let shape := (List.range ndim).map fun i => m (3 + n + i)
      let code := m (3 + n + ndim)
      match DTYPE_MAP code with
      | none => .unknownDtype code
      | some dtype => .header param_name shape dtype

/-- What the receiver loop does after parsing one header.  Only
`recvPayload` goes on to issue the payload broadcast and the registry
write; `exitShutdown` and `exitInvalidName` break out of the loop and
`skipUnknownDtype` continues with the next header, all three without
receiving a payload. -/
inductive ReceiverAction
  | exitShutdown
  | exitInvalidName (len : Int)
  | skipUnknownDtype (code : Int)
  | recvPayload (name : List Nat) (shape : List Int) (dtype : Dtype)
deriving DecidableEq, Repr

/-- One iteration of the receiver loop of `weight_updater_process`, up to the
point where the payload tensor would be received. -/
def receiverStep (m : Metadata) : ReceiverAction :=
  match decode_header m with
  | .shutdown => .exitShutdown
  | .invalidNameLen l => .exitInvalidName l
  | .unknownDtype c => .skipUnknownDtype c
  | .header name shape dtype => .recvPayload name shape dtype

/-- A registry entry: an n-dimensional array with its shape and contents.
The elementwise dtype cast that `Tensor.copy_` may perform is not modelled;
no verified claim mentions the numeric values written into the target. -/
structure TensorV where
  shape : List Int
  data : List Int
deriving DecidableEq, Repr

/-- Dictionary lookup (Python `dict` access / `in` test) on an association
list. -/
def dlookup {α β : Type} [DecidableEq α] (k : α) : List (α × β) → Option β
  | [] => none
  | (k2, v) :: rest => if k2 = k then some v else dlookup k rest

/-- Step 3 of the receiver loop (`vllm/distributed_updater.py`): apply one
received tensor to the shared `state_dict`.

* name not present → log and skip, registry untouched;
* shape mismatch → log and skip, registry untouched;
* otherwise `state_dict[param_name].data.copy_(param_tensor)`: overwrite the
  stored entry's contents in place, keeping its shape. -/
def applyUpdate (state_dict : List (List Nat × TensorV)) (param_name : List Nat)
    (incoming : TensorV) : List (List Nat × TensorV) :=
  match dlookup param_name state_dict with
  | none => state_dict
  | some t =>
    if t.shape = incoming.shape then
      state_dict.map fun kv =>
        if kv.1 = param_name then (kv.1, { kv.2 with data := incoming.data }) else kv
    else
      state_dict

/-! ## Sparse result protocol (`sidecar/__main__.py`, `receive_distro_results`)

The function allocates, per parameter, index/value receive buffers shaped
`(results_len,) + metadata_entry_shape`, broadcasts into them, chunks along
dim 0 and squeezes the leading dimension; the received *contents* come from
the coordinator (an external collaborator), so tensors are modelled here by
their shapes only.  Allocation and broadcast calls are recorded as an event
trace so that "fails before any buffer is allocated or broadcast issued" is
a statement about the trace. -/

/-- A tensor shape (torch `Size`). -/
abbrev Shape := List Nat

/-- `DistroResultsMetadata` from `sidecar/api.py`. -/
structure DistroResultsMetadata where
  sparse_idx_size : List Shape
  sparse_idx_dtype : Int
  sparse_val_size : List Shape
  sparse_val_dtype : Int
  xshape : List Shape
  totalk : List Nat
deriving DecidableEq, Repr

/-- `DistroResult(sparse_idx, sparse_val, xshape, totalk)`; the two tensors
are modelled by their shapes. -/
structure DistroResult where
  sparse_idx : Shape
  sparse_val : Shape
  xshape : Shape
  totalk : Nat
deriving DecidableEq, Repr

/-- Observable side effects of `receive_distro_results`, in program order. -/
inductive SidecarEvent
  | alloc (shape : Shape) (dtype : Dtype)
  | bcast (shape : Shape)
deriving DecidableEq, Repr

/-- Ways `receive_distro_results` can raise: one of the three `assert`
statements on the metadata list lengths, or a Python `KeyError` on a dtype
code missing from `DTYPE_MAPPING`. -/
inductive SidecarErr
  | assertFail
  | keyError (code : Int)
deriving DecidableEq, Repr

/-- Shapes of `torch.chunk(t, chunks, dim=0)`: chunk size is
`ceil(d0 / chunks)`; all chunks are full except a last partial one.
(`chunks = 0` is a torch error and is never reached by the source, which
calls this with `chunks = results_len ≥ 1`.) -/
def chunkShapes (shape : Shape) (chunks : Nat) : List Shape :=
  match shape, chunks with
  | [], _ => []
  | _, 0 => []
  | d0 :: rest, ch + 1 =>
    let csz := (d0 + ch) / (ch + 1)
    if csz = 0 then []
    else
      (List.replicate (d0 / csz) csz
        ++ if d0 % csz = 0 then [] else [d0 % csz]).map (· :: rest)

/-- Shape of `t.squeeze(dim=0)`: drop dim 0 exactly when it has size 1. -/
def squeeze0 (shape : Shape) : Shape :=
  match shape with
  | 1 :: rest => rest
  | s => s

/-- One iteration of the per-parameter loop in `receive_distro_results`:
look up both dtypes (argument evaluation order: the `DTYPE_MAPPING[...]`
subscript raises before the corresponding `torch.empty` allocates), allocate
the `(results_len,) + size` buffers, broadcast both, and chunk both along
dim 0.  Returns the events that happened and either the pair of chunk-shape
lists or the error. -/
def recvOneParam (results_len : Nat) (md : DistroResultsMetadata) (p : Nat) :
    List SidecarEvent × Except SidecarErr (List Shape × List Shape) :=
  let sparse_idx_size := results_len :: md.sparse_idx_size.getD p []
  let sparse_val_size := results_len :: md.sparse_val_size.getD p []
  match DTYPE_MAPPING md.sparse_idx_dtype with
  | none => ([], .error (.keyError md.sparse_idx_dtype))
  | some idx_dtype =>
    match DTYPE_MAPPING md.sparse_val_dtype with
    | none => ([.alloc sparse_idx_size idx_dtype], .error (.keyError md.sparse_val_dtype))
    | some val_dtype =>
      ([.alloc sparse_idx_size idx_dtype, .alloc sparse_val_size val_dtype,
        .bcast sparse_idx_size, .bcast sparse_val_size],
       .ok (chunkShapes sparse_idx_size results_len,
            chunkShapes sparse_val_size results_len))

/-- The `for param_index in range(params_len)` loop, short-circuiting at the
first raised error and concatenating the event traces. -/
def recvParamsLoop (results_len : Nat) (md : DistroResultsMetadata) :
    List Nat → List SidecarEvent × Except SidecarErr (List (List Shape × List Shape))
  | [] => ([], .ok [])
  | p :: rest =>
    let (evs, r) := recvOneParam results_len md p
    match r with
    | .error e => (evs, .error e)
    | .ok chunks =>
      let (evs2, r2) := recvParamsLoop results_len md rest
      (evs ++ evs2, r2.map (chunks :: ·))

/-- `receive_distro_results` from `sidecar/__main__.py`: the three length
asserts, the per-parameter receive loop, then reassembly indexed result
first (`results[result_index][param_index]`), each entry squeezing away the
leading chunk dimension and pairing with `xshape`/`totalk`. -/
def receive_distro_results (results_len : Nat) (md : DistroResultsMetadata) :
    List SidecarEvent × Except SidecarErr (List (List DistroResult)) :=
  if md.sparse_idx_size.length ≠ md.sparse_val_size.length then
    ([], .error .assertFail)
  else if md.sparse_val_size.length ≠ md.xshape.length then
    ([], .error .assertFail)
  else if md.xshape.length ≠ md.totalk.length then
    ([], .error .assertFail)
  else
    ((recvParamsLoop results_len md (List.range md.sparse_idx_size.length)).1,
     (recvParamsLoop results_len md (List.range md.sparse_idx_size.length)).2.map
       fun perParam =>
         (List.range results_len).map fun result_index =>
           (List.range md.sparse_idx_size.length).map fun param_index =>
             { sparse_idx :=
                 squeeze0 ((perParam.getD param_index ([], [])).1.getD result_index [])
               sparse_val :=
                 squeeze0 ((perParam.getD param_index ([], [])).2.getD result_index [])
               xshape := md.xshape.getD param_index []
               totalk := md.totalk.getD param_index 0 })

/-! ## Control-plane operation loop (`sidecar/__main__.py`, `main`)

The loop fetches `store.get(str(iteration))` for `iteration = 0, 1, 2, ...`
(any failure of the fetch returns from `main` — the normal exit), then
dispatches on `operation["operation"]`.  We model the control skeleton: the
store as an association list (insertion order preserved, lookup by key), the
trainer as present/absent, and each dispatch arm by its control outcome.
The numeric payload of each arm (batch receive, the actual train/optimize
steps) happens strictly after the modelled decision points and does not
influence them. -/

/-- Operation descriptors, tagged as in `sidecar/api.py` /
`operation["operation"]`.  Only `grad_accum_in_fp32` influences control flow
(it makes the `hyperparameters` arm raise); the remaining payload fields are
not modelled.  A tag matching no `elif` arm falls through and the loop
continues, which `unknown` captures. -/
inductive Op
  | hyperparameters (grad_accum_in_fp32 : Bool)
  | train
  | optimize
  | extract
  | forward
  | exit
  | unknown (tag : String)
deriving DecidableEq, Repr

/-- Control outcome of one dispatch of the `while True` body. -/
inductive StepR
  | configured
  | ran
  | fatal (msg : String)
  | exited
deriving DecidableEq, Repr

/-- Whether a step outcome is a raised error. -/
def StepR.isFatal : StepR → Bool
  | .fatal _ => true
  | _ => false

/-- One dispatch of the control loop body, given whether a trainer exists
(`trainer is not None`):

* `hyperparameters`: raises `ValueError("FP32 reduce not supported in Python
  Hf yet")` when `grad_accum_in_fp32`, else constructs the trainer;
* `train` / `optimize` / `extract`: raise
  `RuntimeError("Got train operation without having created a trainer")`
  when no trainer exists (the source reuses the same message in all three
  arms), else run;
* `forward`: runs `model.forward(...)` — the arm contains no trainer check;
* `exit`: returns from `main`. -/
def sidecarStep (trainer : Bool) (op : Op) : StepR :=
  match op with
  | .hyperparameters grad_accum_in_fp32 =>
    if grad_accum_in_fp32 then .fatal "FP32 reduce not supported in Python Hf yet"
    else .configured
  | .train =>
    if trainer then .ran
    else .fatal "Got train operation without having created a trainer"
  | .optimize =>
    if trainer then .ran
    else .fatal "Got train operation without having created a trainer"
  | .extract =>
    if trainer then .ran
    else .fatal "Got train operation without having created a trainer"
  | .forward => .ran
  | .exit => .exited
  | .unknown _ => .ran

/-- How the control loop ends. -/
inductive LoopEnd
  | storeMiss
  | exitOp
  | fatal (msg : String)
deriving DecidableEq, Repr

/-- The `while True` loop of `main`: fetch `str(iteration)` from the store
(failure → return, modelled `storeMiss`), dispatch, advance `iteration`.
Returns the list of operations processed, in order, and how the loop ended.
`fuel` only bounds the recursion; every theorem below supplies more fuel
than iterations used, so the `fuel = 0` value is never reached. -/
def controlLoop (store : List (String × Op)) :
    Nat → Bool → Nat → List Op × LoopEnd
  | 0, _, _ => ([], .fatal "out of fuel")
  | fuel + 1, trainer, iteration =>
    match dlookup (toString iteration) store with
    | none => ([], .storeMiss)
    | some op =>
      match sidecarStep trainer op with
      | .configured =>
        let (ops, e) := controlLoop store fuel true (iteration + 1)
        (op :: ops, e)
      | .ran =>
        let (ops, e) := controlLoop store fuel trainer (iteration + 1)
        (op :: ops, e)
      | .fatal msg => ([op], .fatal msg)
      | .exited => ([op], .exitOp)

/-- Dispatch outcomes along a list of operations, threading the
trainer state: `true` exactly when every step is `configured` or `ran`
(no raise, no exit). -/
def cleanRun : Bool → List Op → Bool
  | _, [] => true
  | trainer, op :: rest =>
    match sidecarStep trainer op with
    | .configured => cleanRun true rest
    | .ran => cleanRun trainer rest
    | .fatal _ => false
    | .exited => false

end Psyche


namespace Psyche

/-! ## Helper lemmas -/

theorem mset_same (m : Metadata) (i : Nat) (v : Int) : mset m i v i = v := by
  simp [mset]

theorem mset_other (m : Metadata) (i j : Nat) (v : Int) (h : j ≠ i) :
    mset m i v j = m j := by
  simp [mset, h]

theorem msetList_lt (vs : List Int) : ∀ (m : Metadata) (start j : Nat), j < start →
    msetList m start vs j = m j := by
  induction vs with
  | nil => intro m start j _; rfl
  | cons v vs ih =>
    intro m start j h
    show msetList (mset m start v) (start + 1) vs j = m j
    rw [ih _ _ _ (by omega), mset_other _ _ _ _ (by omega)]

theorem msetList_ge (vs : List Int) : ∀ (m : Metadata) (start j : Nat),
    start + vs.length ≤ j → msetList m start vs j = m j := by
  induction vs with
  | nil => intro m start j _; rfl
  | cons v vs ih =>
    intro m start j h
    simp only [List.length_cons] at h
    show msetList (mset m start v) (start + 1) vs j = m j
    rw [ih _ _ _ (by omega), mset_other _ _ _ _ (by omega)]

theorem msetList_at (vs : List Int) : ∀ (m : Metadata) (start i : Nat), i < vs.length →
    msetList m start vs (start + i) = vs.getD i 0 := by
  induction vs with
  | nil => intro m start i h; exact absurd h (by simp)
  | cons v vs ih =>
    intro m start i h
    match i with
    | 0 =>
      show msetList (mset m start v) (start + 1) vs (start + 0) = v
      rw [msetList_lt _ _ _ _ (by omega)]
      show (if start + 0 = start then v else m (start + 0)) = v
      simp
    | i + 1 =>
      show msetList (mset m start v) (start + 1) vs (start + (i + 1)) = vs.getD i 0
      have harith : start + (i + 1) = (start + 1) + i := by omega
      simp only [List.length_cons] at h
      rw [harith, ih _ _ _ (by omega)]

theorem getD_map_range {α : Type} (n : Nat) (g : Nat → α) (i : Nat) (d : α)
    (h : i < n) : ((List.range n).map g).getD i d = g i := by
  simp [List.getD_eq_getElem?_getD, List.getElem?_map, List.getElem?_range, h]

theorem DTYPE_MAP_inverts (dt : Dtype) (i : Int) (h : DTYPE_TO_ID dt = some i) :
    DTYPE_MAP i = some dt := by
  cases dt <;> simp [DTYPE_TO_ID] at h <;> subst h <;> decide

theorem rstripNul_of_getLast_ne (bs : List Nat) (h : bs ≠ [])
    (hl : bs.getLast h ≠ 0) : rstripNul bs = bs := by
  unfold rstripNul
  cases hrev : bs.reverse with
  | nil => exact absurd (by simpa using congrArg List.reverse hrev) h
  | cons a t =>
    have ha : a = bs.getLast h := by
      have h1 := List.getLast?_eq_getLast bs h
      rw [List.getLast?_eq_head?_reverse, hrev] at h1
      simpa using h1
    rw [List.dropWhile_cons, if_neg (by simp [ha, hl]), ← hrev, List.reverse_reverse]

end Psyche

namespace Psyche

theorem dlookup_map_value (l : List (List Nat × TensorV)) (nm k : List Nat)
    (d : List Int) (hk : k ≠ nm) :
    dlookup k (l.map fun kv =>
        if kv.1 = nm then (kv.1, { kv.2 with data := d }) else kv)
      = dlookup k l := by
  induction l with
  | nil => rfl
  | cons kv rest ih =>
    obtain ⟨k2, v⟩ := kv
    by_cases h1 : k2 = nm
    · subst h1
      have h2 : k2 ≠ k := fun hh => hk hh.symm
      simp only [List.map_cons, if_pos rfl]
      simp [dlookup, h2, ih]
    · simp only [List.map_cons, if_neg h1]
      by_cases h2 : k2 = k
      · simp [dlookup, h2]
      · simp [dlookup, h2, ih]

/-! ## Claims -/

/-- C1 (code bug witness): applying `permute_for_rotary` twice is not the
identity.  With one head of (even) `head_dim = 8` — the head size the repo's
own `test_permute_for_rotary` uses — the interleaved rows `[0..7]` become
`[0,2,4,6,1,3,5,7]` after one application and `[0,4,1,5,2,6,3,7]` after two,
not the original tensor, contradicting the spec sentence "the operation is
its own inverse" and the test's `assert_close(double_permuted, weight)`. -/
theorem c1_rotary_double_permute_not_identity :
    (permute_for_rotary [[0], [1], [2], [3], [4], [5], [6], [7]] 1).bind
        (fun permuted => permute_for_rotary permuted 1)
      = some [[0], [4], [1], [5], [2], [6], [3], [7]] ∧
    some [[0], [4], [1], [5], [2], [6], [3], [7]]
      ≠ some ([[0], [1], [2], [3], [4], [5], [6], [7]] : Rows) := by
  exact ⟨by decide, by decide⟩

/-- C2 (counterexample): a `forward` operation fetched while no trainer
exists (no `Configure` has completed) is executed by the control loop — the
`forward` arm contains no trainer check — rather than raising a fatal
error, so the claim "every operation other than Configure ... including
forward ... raises a fatal, explicit error" is false on the code. -/
theorem c2_forward_runs_without_configure :
    sidecarStep false Op.forward = StepR.ran ∧
    (sidecarStep false Op.forward).isFatal = false := by
  exact ⟨rfl, rfl⟩

/-- C2 (amended): a `train`, `optimize`, or `extract` operation fetched
before any `Configure` has completed makes the control loop raise a fatal,
explicit `RuntimeError` (the source reuses the message "Got train operation
without having created a trainer" in all three arms); `forward` and `exit`
are dispatched without requiring a prior `Configure`. -/
theorem c2_train_optimize_extract_require_configure (op : Op)
    (h : op = Op.train ∨ op = Op.optimize ∨ op = Op.extract) :
    sidecarStep false op
      = .fatal "Got train operation without having created a trainer" := by
  rcases h with h | h | h <;> subst h <;> rfl

/-- Witness for the amended C2 at the concrete operation `train`. -/
theorem c2_train_optimize_extract_require_configure_witness :
    sidecarStep false Op.train
      = .fatal "Got train operation without having created a trainer" :=
  c2_train_optimize_extract_require_configure Op.train (Or.inl rfl)

/-- C3: the dtype-code table of the sparse-result path (`DTYPE_MAPPING` in
`sidecar/__main__.py`) and the dtype-code table of the live weight-update
path (`DTYPE_MAP` in `vllm/distributed_updater.py`) disagree: code 5 maps
to `int32` in the weight-update table but to `float16` (torch.half) in the
sparse-result table, so the two lookup functions are not equal. -/
theorem c3_dtype_tables_disagree :
    DTYPE_MAP 5 = some Dtype.int32 ∧
    DTYPE_MAPPING 5 = some Dtype.float16 ∧
    DTYPE_MAPPING ≠ DTYPE_MAP := by
  refine ⟨by decide, by decide, fun hEq => ?_⟩
  exact absurd (congrFun hEq 5) (by decide)

/-- C5: shutdown precedence.  For every metadata buffer whose shutdown slot
(index 0) holds the shutdown marker `-1`, the receiver loop of
`weight_updater_process` exits at once: the name, shape and dtype fields
are never parsed and no payload broadcast is issued (only the
`recvPayload` action receives a payload), no matter what garbage the other
127 slots hold. -/
theorem c5_shutdown_precedence (m : Metadata) (h : m 0 = -1) :
    receiverStep m = .exitShutdown := by
  simp [receiverStep, decode_header, h]

/-- Witness for C5: a buffer with the shutdown marker and garbage in every
other slot (including an over-long name length and an unknown dtype code)
still exits immediately. -/
theorem c5_shutdown_precedence_witness :
    receiverStep (fun i => if i = 0 then -1 else 987654321) = .exitShutdown :=
  c5_shutdown_precedence (fun i => if i = 0 then -1 else 987654321) rfl

/-- C10: frame property of the weight-update receiver.  Applying one
received non-shutdown parameter message to the registry (step 3 of
`weight_updater_process`) modifies at most the entry named in the header:
every other name still looks up to its exact old value; if the name is
absent, or present with a different shape, the registry is returned
entirely unchanged; and in the successful case the update is exactly the
in-place overwrite of the named entry's contents. -/
theorem c10_receiver_frame (state_dict : List (List Nat × TensorV))
    (param_name : List Nat) (incoming : TensorV) :
    (∀ k, k ≠ param_name →
        dlookup k (applyUpdate state_dict param_name incoming)
          = dlookup k state_dict) ∧
    (dlookup param_name state_dict = none →
        applyUpdate state_dict param_name incoming = state_dict) ∧
    (∀ t, dlookup param_name state_dict = some t → t.shape ≠ incoming.shape →
        applyUpdate state_dict param_name incoming = state_dict) ∧
    (∀ t, dlookup param_name state_dict = some t → t.shape = incoming.shape →
        applyUpdate state_dict param_name incoming
          = state_dict.map fun kv =>
              if kv.1 = param_name then
                (kv.1, { kv.2 with data := incoming.data })
              else kv) := by
  have happly : ∀ t : TensorV, dlookup param_name state_dict = some t →
      t.shape = incoming.shape →
      applyUpdate state_dict param_name incoming
        = state_dict.map fun kv =>
            if kv.1 = param_name then
              (kv.1, { kv.2 with data := incoming.data })
            else kv := by
    intro t ht hsh
    simp [applyUpdate, ht, hsh]
  refine ⟨fun k hk => ?_, fun hnone => ?_, fun t ht hsh => ?_, happly⟩
  · cases hl : dlookup param_name state_dict with
    | none => simp [applyUpdate, hl]
    | some t =>
      by_cases hsh : t.shape = incoming.shape
      · rw [happly t hl hsh]
        exact dlookup_map_value state_dict param_name k incoming.data hk
      · simp [applyUpdate, hl, hsh]
  · simp [applyUpdate, hnone]
  · simp [applyUpdate, ht, hsh]

/-- Witness for C10 on a concrete two-entry registry: updating `[97]` with a
matching shape leaves the entry `[98]` untouched. -/
theorem c10_receiver_frame_witness :
    dlookup [98]
        (applyUpdate [([97], ⟨[2], [1, 2]⟩), ([98], ⟨[3], [3, 4, 5]⟩)]
          [97] ⟨[2], [9, 9]⟩)
      = dlookup [98] [([97], ⟨[2], [1, 2]⟩), ([98], ⟨[3], [3, 4, 5]⟩)] :=
  (c10_receiver_frame [([97], ⟨[2], [1, 2]⟩), ([98], ⟨[3], [3, 4, 5]⟩)]
    [97] ⟨[2], [9, 9]⟩).1 [98] (by decide)

end Psyche

namespace Psyche

theorem getD_map_intCast (l : List Nat) (i : Nat) (h : i < l.length) :
    (l.map Int.ofNat).getD i 0 = ((l.getD i 0 : Nat) : Int) := by
  rw [List.getD_eq_getElem?_getD, List.getD_eq_getElem?_getD, List.getElem?_map,
    List.getElem?_eq_getElem h]
  rfl

theorem broadcast_parameter_metadata_reads (param_name shape : List Nat)
    (dtype : Dtype) (dtype_id : Int)
    (hlen : param_name.length ≤ 100)
    (hdt : DTYPE_TO_ID dtype = some dtype_id) :
    ∃ m, broadcast_parameter_metadata param_name shape dtype = .ok m ∧
      m 0 = 0 ∧
      m 1 = (param_name.length : Int) ∧
      (∀ i, i < param_name.length →
        m (2 + i) = ((param_name.getD i 0 : Nat) : Int)) ∧
      m (2 + param_name.length) = (shape.length : Int) ∧
      (∀ i, i < shape.length →
        m (3 + param_name.length + i) = ((shape.getD i 0 : Nat) : Int)) ∧
      m (3 + param_name.length + shape.length) = dtype_id := by
  have hnot : ¬ 100 < param_name.length := by omega
  unfold broadcast_parameter_metadata
  rw [if_neg hnot, hdt]
  refine ⟨_, rfl, ?_, ?_, ?_, ?_, ?_, ?_⟩
  · rw [mset_other _ _ _ _ (by omega), msetList_lt _ _ _ _ (by omega),
      mset_other _ _ _ _ (by omega), msetList_lt _ _ _ _ (by omega),
      mset_other _ _ _ _ (by omega)]
    exact mset_same mzero 0 0
  · rw [mset_other _ _ _ _ (by omega), msetList_lt _ _ _ _ (by omega),
      mset_other _ _ _ _ (by omega), msetList_lt _ _ _ _ (by omega)]
    exact mset_same _ 1 _
  · intro i hi
    rw [mset_other _ _ _ _ (by omega), msetList_lt _ _ _ _ (by omega),
      mset_other _ _ _ _ (by omega),
      msetList_at _ _ _ _ (by rw [List.length_map]; exact hi)]
    exact getD_map_intCast param_name i hi
  · rw [mset_other _ _ _ _ (by omega), msetList_lt _ _ _ _ (by omega)]
    exact mset_same _ _ _
  · intro i hi
    rw [mset_other _ _ _ _ (by omega),
      msetList_at _ _ _ _ (by rw [List.length_map]; exact hi)]
    exact getD_map_intCast shape i hi
  · exact mset_same _ _ _

theorem decode_header_spec (m : Metadata) (param_name : List Nat)
    (shape : List Nat) (dtype : Dtype) (dtype_id : Int)
    (h0 : m 0 ≠ -1)
    (h1 : m 1 = (param_name.length : Int))
    (hpos : 0 < param_name.length)
    (hle : param_name.length ≤ 100)
    (hname : ∀ i, i < param_name.length →
      m (2 + i) = ((param_name.getD i 0 : Nat) : Int))
    (hbytes : ∀ b ∈ param_name, b < 256)
    (hstrip : rstripNul param_name = param_name)
    (hnd : m (2 + param_name.length) = (shape.length : Int))
    (hshape : ∀ i, i < shape.length →
      m (3 + param_name.length + i) = ((shape.getD i 0 : Nat) : Int))
    (hcode : m (3 + param_name.length + shape.length) = dtype_id)
    (hmap : DTYPE_MAP dtype_id = some dtype) :
    decode_header m = .header param_name (shape.map Int.ofNat) dtype := by
  have hraw : (List.range param_name.length).map
      (fun i => (m (2 + i) % 256).toNat) = param_name := by
    apply List.ext_getElem
    · rw [List.length_map, List.length_range]
    · intro i h1i h2i
      simp only [List.getElem_map, List.getElem_range]
      rw [hname i h2i]
      have hgd : param_name.getD i 0 = param_name[i] := by
        rw [List.getD_eq_getElem?_getD, List.getElem?_eq_getElem h2i]
        rfl
      rw [hgd, Int.emod_eq_of_lt (by omega)
        (by exact_mod_cast hbytes _ (List.getElem_mem h2i))]
      rfl
  have hsh : (List.range shape.length).map
      (fun i => m (3 + param_name.length + i)) = shape.map Int.ofNat := by
    apply List.ext_getElem
    · rw [List.length_map, List.length_map, List.length_range]
    · intro i h1i h2i
      have h2s : i < shape.length := by rw [List.length_map] at h2i; exact h2i
      simp only [List.getElem_map, List.getElem_range]
      rw [hshape i h2s]
      have hgd : shape.getD i 0 = shape[i] := by
        rw [List.getD_eq_getElem?_getD, List.getElem?_eq_getElem h2s]
        rfl
      rw [hgd]
      rfl
  unfold decode_header
  rw [if_neg h0]
  simp only [h1, Int.toNat_ofNat]
  rw [if_neg (by omega)]
  simp only [Int.toNat_ofNat, hraw, hstrip, hnd, hsh, hcode, hmap]

/-- C4 (amended): header round-trip.  For every non-empty parameter name of
at most 100 UTF-8 bytes whose last byte is not NUL, every shape of at most
20 non-negative dimensions, and every dtype in the canonical (0..8) table,
decoding the 128-integer metadata buffer produced by `broadcast_parameter`
yields back exactly the same name, shape and dtype, through the
non-shutdown `header` branch of the receiver.

The two amendments are forced by the code: the receiver rejects
`param_name_len == 0` as an error (so the empty name does not round-trip,
see the counterexample), and it strips trailing `"\x00"` characters from
the decoded name (so a name ending in a NUL byte comes back shorter). -/
theorem c4_header_roundtrip (param_name shape : List Nat) (dtype : Dtype)
    (dtype_id : Int)
    (hne : param_name ≠ [])
    (hlen : param_name.length ≤ 100)
    (hbytes : ∀ b ∈ param_name, b < 256)
    (hlast : param_name.getLast hne ≠ 0)
    (hdims : shape.length ≤ 20)
    (hdt : DTYPE_TO_ID dtype = some dtype_id) :
    (broadcast_parameter_metadata param_name shape dtype).map decode_header
      = .ok (.header param_name (shape.map Int.ofNat) dtype) := by
  obtain ⟨m, hm, h0, h1, hname, hnd, hshape, hcode⟩ :=
    broadcast_parameter_metadata_reads param_name shape dtype dtype_id hlen hdt
  rw [hm]
  show Except.ok (decode_header m) = _
  rw [decode_header_spec m param_name shape dtype dtype_id (by rw [h0]; decide)
    h1 (List.length_pos.mpr hne) hlen hname hbytes
    (rstripNul_of_getLast_ne param_name hne hlast) hnd hshape hcode
    (DTYPE_MAP_inverts dtype dtype_id hdt)]

/-- C4 (counterexample): the empty parameter name is at most 100 UTF-8
bytes, and the encoder accepts it, but the receiver treats the decoded
`param_name_len == 0` as an error (`Invalid param_name_len`, breaking the
loop) instead of returning the header `([], shape, dtype, false)`; so the
round-trip claim quantified over *every* name of at most 100 bytes is
false. -/
theorem c4_header_roundtrip_fails_on_empty_name :
    (broadcast_parameter_metadata [] [2] .float32).map decode_header
      = .ok (.invalidNameLen 0) ∧
    (.ok (.invalidNameLen 0) : Except EncodeErr DecodeResult)
      ≠ .ok (.header [] ([2].map Int.ofNat) .float32) := by
  exact ⟨by decide, by decide⟩

/-- Witness for C4 at the concrete name "hi" (bytes `[104, 105]`), shape
`[2, 3]`, dtype `float32` (canonical code 0). -/
theorem c4_header_roundtrip_witness :
    (broadcast_parameter_metadata [104, 105] [2, 3] .float32).map decode_header
      = .ok (.header [104, 105] ([2, 3].map Int.ofNat) .float32) :=
  c4_header_roundtrip [104, 105] [2, 3] .float32 0 (by decide) (by decide)
    (by decide) (by decide) (by decide) (by decide)

end Psyche

namespace Psyche

theorem getD_replicate {α : Type} (n : Nat) (a : α) (i : Nat) (d : α) (h : i < n) :
    (List.replicate n a).getD i d = a := by
  rw [List.getD_eq_getElem?_getD, List.getElem?_replicate, if_pos h]
  rfl

theorem chunkShapes_self (n : Nat) (rest : Shape) (h : 1 ≤ n) :
    chunkShapes (n :: rest) n = List.replicate n (1 :: rest) := by
  obtain ⟨ch, rfl⟩ : ∃ ch, n = ch + 1 := ⟨n - 1, by omega⟩
  have hcsz : (ch + 1 + ch) / (ch + 1) = 1 :=
    Nat.div_eq_of_lt_le (by omega) (by omega)
  simp [chunkShapes, hcsz, Nat.mod_one, List.map_replicate]

theorem recvParamsLoop_ok (results_len : Nat) (md : DistroResultsMetadata)
    (idx_dtype val_dtype : Dtype)
    (hidx : DTYPE_MAPPING md.sparse_idx_dtype = some idx_dtype)
    (hval : DTYPE_MAPPING md.sparse_val_dtype = some val_dtype)
    (ps : List Nat) :
    (recvParamsLoop results_len md ps).2 = .ok (ps.map fun p =>
      (chunkShapes (results_len :: md.sparse_idx_size.getD p []) results_len,
       chunkShapes (results_len :: md.sparse_val_size.getD p []) results_len)) := by
  induction ps with
  | nil => rfl
  | cons p rest ih =>
    rcases hrec : recvParamsLoop results_len md rest with ⟨evs2, r2⟩
    rw [hrec] at ih
    simp [recvParamsLoop, recvOneParam, hidx, hval, hrec, ih, Except.map]

theorem recvParamsLoop_no_assert (results_len : Nat) (md : DistroResultsMetadata)
    (ps : List Nat) :
    (recvParamsLoop results_len md ps).2 ≠ .error .assertFail := by
  induction ps with
  | nil => simp [recvParamsLoop]
  | cons p rest ih =>
    cases hidx : DTYPE_MAPPING md.sparse_idx_dtype with
    | none => simp [recvParamsLoop, recvOneParam, hidx]
    | some idx_dtype =>
      cases hval : DTYPE_MAPPING md.sparse_val_dtype with
      | none => simp [recvParamsLoop, recvOneParam, hidx, hval]
      | some val_dtype =>
        rcases hrec : recvParamsLoop results_len md rest with ⟨evs2, r2⟩
        rw [hrec] at ih
        cases r2 with
        | error e =>
          simp only [recvParamsLoop, recvOneParam, hidx, hval, hrec] at ih ⊢
          simpa [Except.map] using ih
        | ok v => simp [recvParamsLoop, recvOneParam, hidx, hval, hrec, Except.map]

/-- C9: metadata list-length mismatch is fatal and atomic.
`receive_distro_results` returns the assertion failure with an *empty* event
trace — no receive buffer allocated, no broadcast issued — exactly when the
four metadata lists are not all of equal length; when they are all equal no
assertion fires (the only other raise is a `KeyError` on an unknown dtype
code, which is a different error). -/
theorem c9_metadata_mismatch_fatal_atomic (results_len : Nat)
    (md : DistroResultsMetadata) :
    receive_distro_results results_len md = ([], .error .assertFail) ↔
      ¬ (md.sparse_idx_size.length = md.sparse_val_size.length ∧
         md.sparse_val_size.length = md.xshape.length ∧
         md.xshape.length = md.totalk.length) := by
  constructor
  · intro h hc
    obtain ⟨h1, h2, h3⟩ := hc
    unfold receive_distro_results at h
    rw [if_neg (not_not_intro h1), if_neg (not_not_intro h2),
      if_neg (not_not_intro h3), Prod.mk.injEq] at h
    obtain ⟨hfst, hsnd⟩ := h
    have hna := recvParamsLoop_no_assert results_len md
      (List.range md.sparse_idx_size.length)
    cases hr : (recvParamsLoop results_len md
        (List.range md.sparse_idx_size.length)).2 with
    | error e =>
      rw [hr] at hsnd hna
      simp only [Except.map] at hsnd
      injection hsnd with he
      exact hna (by rw [he])
    | ok v =>
      rw [hr] at hsnd
      simp [Except.map] at hsnd
  · intro hc
    unfold receive_distro_results
    by_cases h1 : md.sparse_idx_size.length = md.sparse_val_size.length
    · by_cases h2 : md.sparse_val_size.length = md.xshape.length
      · by_cases h3 : md.xshape.length = md.totalk.length
        · exact absurd ⟨h1, h2, h3⟩ hc
        · rw [if_neg (not_not_intro h1), if_neg (not_not_intro h2), if_pos h3]
      · rw [if_neg (not_not_intro h1), if_pos h2]
    · rw [if_pos h1]

end Psyche

namespace Psyche

theorem chunk_pair_entry (rl : Nat) (isz vsz : Shape) (ri : Nat)
    (h : 1 ≤ rl) (hri : ri < rl) :
    squeeze0 ((chunkShapes (rl :: isz) rl,
        chunkShapes (rl :: vsz) rl).1.getD ri []) = isz ∧
    squeeze0 ((chunkShapes (rl :: isz) rl,
        chunkShapes (rl :: vsz) rl).2.getD ri []) = vsz := by
  constructor
  · show squeeze0 ((chunkShapes (rl :: isz) rl).getD ri []) = isz
    rw [chunkShapes_self rl isz h, getD_replicate rl _ ri [] hri]
    rfl
  · show squeeze0 ((chunkShapes (rl :: vsz) rl).getD ri []) = vsz
    rw [chunkShapes_self rl vsz h, getD_replicate rl _ ri [] hri]
    rfl

/-- C6 (amended): sparse reconstruction shape law.  For every
`results_len ≥ 1` and metadata whose four lists all have length `n` *and
whose two dtype codes are in the sidecar's `DTYPE_MAPPING` table* (the
amendment: a code outside the table raises `KeyError` instead, see the
counterexample), `receive_distro_results` returns exactly `results_len`
results, each with exactly `n` per-parameter entries indexed
`results[result_index][param_index]`, and the entry at `param_index` has
sparse-index shape `sparse_idx_size[param_index]` and sparse-value shape
`sparse_val_size[param_index]` — the allocated `(results_len,) + size`
buffer shape with the leading `results_len` dimension stripped — paired
with that parameter's `xshape` and `totalk`. -/
theorem c6_sparse_reconstruction_shape_law (results_len n : Nat)
    (md : DistroResultsMetadata) (idx_dtype val_dtype : Dtype)
    (hr : 1 ≤ results_len)
    (hA : md.sparse_idx_size.length = n)
    (hB : md.sparse_val_size.length = n)
    (hC : md.xshape.length = n)
    (hD : md.totalk.length = n)
    (hidx : DTYPE_MAPPING md.sparse_idx_dtype = some idx_dtype)
    (hval : DTYPE_MAPPING md.sparse_val_dtype = some val_dtype) :
    (receive_distro_results results_len md).2 =
      .ok ((List.range results_len).map fun _ =>
        (List.range n).map fun param_index =>
          { sparse_idx := md.sparse_idx_size.getD param_index []
            sparse_val := md.sparse_val_size.getD param_index []
            xshape := md.xshape.getD param_index []
            totalk := md.totalk.getD param_index 0 }) := by
  unfold receive_distro_results
  rw [hA, hB, hC, hD, if_neg (not_not_intro rfl), if_neg (not_not_intro rfl),
    if_neg (not_not_intro rfl)]
  show Except.map _ (recvParamsLoop results_len md (List.range n)).2 = _
  rw [recvParamsLoop_ok results_len md idx_dtype val_dtype hidx hval
    (List.range n)]
  simp only [Except.map]
  congr 1
  apply List.map_congr_left
  intro ri hri
  apply List.map_congr_left
  intro pi hpi
  have hri2 : ri < results_len := List.mem_range.mp hri
  have hpi2 : pi < n := List.mem_range.mp hpi
  rw [getD_map_range n _ pi ([], []) hpi2]
  obtain ⟨e1, e2⟩ := chunk_pair_entry results_len
    (md.sparse_idx_size.getD pi []) (md.sparse_val_size.getD pi []) ri hr hri2
  rw [e1, e2]

/-- C6 (counterexample): with `results_len = 1` and metadata whose four
lists all have length 1 but whose `sparse_idx_dtype` code 1 is not a key of
`DTYPE_MAPPING` (the sidecar table has keys 0,3,4,5,6,7,11,15),
`receive_distro_results` raises `KeyError(1)` instead of returning a list
of results, so the claim quantified over *every* equal-length metadata is
false. -/
theorem c6_unknown_dtype_code_raises :
    (receive_distro_results 1
      { sparse_idx_size := [[4]]
        sparse_idx_dtype := 1
        sparse_val_size := [[4]]
        sparse_val_dtype := 6
        xshape := [[2, 2]]
        totalk := [4] }).2 = .error (.keyError 1) ∧
    (.error (.keyError 1) : Except SidecarErr (List (List DistroResult)))
      ≠ .ok [[⟨[4], [4], [2, 2], 4⟩]] := by
  exact ⟨by decide, by decide⟩

/-- Witness for C6 at `results_len = 3` and two parameters (dtype codes 4 =
int64 and 6 = float32). -/
theorem c6_sparse_reconstruction_shape_law_witness :
    (receive_distro_results 3
      { sparse_idx_size := [[4], [5, 6]]
        sparse_idx_dtype := 4
        sparse_val_size := [[4], [5]]
        sparse_val_dtype := 6
        xshape := [[2, 2], [5, 6]]
        totalk := [4, 30] }).2 =
      .ok ((List.range 3).map fun _ =>
        (List.range 2).map fun param_index =>
          { sparse_idx := [[4], [5, 6]].getD param_index []
            sparse_val := [[4], [5]].getD param_index []
            xshape := [[2, 2], [5, 6]].getD param_index []
            totalk := [4, 30].getD param_index 0 }) :=
  c6_sparse_reconstruction_shape_law 3 2
    { sparse_idx_size := [[4], [5, 6]]
      sparse_idx_dtype := 4
      sparse_val_size := [[4], [5]]
      sparse_val_dtype := 6
      xshape := [[2, 2], [5, 6]]
      totalk := [4, 30] }
    .int64 .float32 (by decide) rfl rfl rfl rfl (by decide) (by decide)

end Psyche

namespace Psyche

theorem permute_for_rotary_some (w : Rows) (n_heads hd : Nat)
    (hn : 0 < n_heads) (hw : w.length = n_heads * hd) (hhd : hd % 2 = 0) :
    permute_for_rotary w n_heads
      = some ((List.range w.length).map fun i =>
          w.getD (i / hd * hd + 2 * (i % hd % (hd / 2)) + i % hd / (hd / 2)) []) := by
  have hdiv : w.length / n_heads = hd := by
    rw [hw]
    exact Nat.mul_div_cancel_left hd hn
  simp only [permute_for_rotary, hdiv]
  rw [if_pos hhd]

theorem permute_for_rotary_length (w : Rows) (n_heads hd : Nat)
    (hn : 0 < n_heads) (hw : w.length = n_heads * hd) (hhd : hd % 2 = 0) :
    ((permute_for_rotary w n_heads).getD []).length = w.length := by
  rw [permute_for_rotary_some w n_heads hd hn hw hhd]
  simp

/-- C8: QKV fusion shape law.  For a query weight of `n_heads*hd` rows and
key/value weights of `n_kv_heads*hd` rows with even `hd`, `apply_qkv_fusion`
succeeds and returns `(n_heads + 2*n_kv_heads)*hd` rows whose first
`n_heads*hd` rows are the (rotary-permuted, when `apply_rotary` is set)
query block, followed by the (likewise possibly permuted) key block,
followed by the unpermuted value block, in order `[q, k, v]`. -/
theorem c8_qkv_fusion_shape_law (q_weight k_weight v_weight : Rows)
    (n_heads n_kv_heads hd : Nat) (apply_rotary : Bool)
    (hn : 0 < n_heads) (hkv : 0 < n_kv_heads) (hhd : hd % 2 = 0)
    (hq : q_weight.length = n_heads * hd)
    (hk : k_weight.length = n_kv_heads * hd)
    (hv : v_weight.length = n_kv_heads * hd) :
    (apply_qkv_fusion q_weight k_weight v_weight n_heads (some n_kv_heads)
        apply_rotary).isSome = true ∧
    ((apply_qkv_fusion q_weight k_weight v_weight n_heads (some n_kv_heads)
        apply_rotary).getD []).length = (n_heads + 2 * n_kv_heads) * hd ∧
    ((apply_qkv_fusion q_weight k_weight v_weight n_heads (some n_kv_heads)
        apply_rotary).getD []).take (n_heads * hd)
      = (if apply_rotary then (permute_for_rotary q_weight n_heads).getD []
         else q_weight) ∧
    (((apply_qkv_fusion q_weight k_weight v_weight n_heads (some n_kv_heads)
        apply_rotary).getD []).drop (n_heads * hd)).take (n_kv_heads * hd)
      = (if apply_rotary then (permute_for_rotary k_weight n_kv_heads).getD []
         else k_weight) ∧
    (((apply_qkv_fusion q_weight k_weight v_weight n_heads (some n_kv_heads)
        apply_rotary).getD []).drop (n_heads * hd)).drop (n_kv_heads * hd)
      = v_weight := by
  cases apply_rotary with
  | false =>
    have hfused : apply_qkv_fusion q_weight k_weight v_weight n_heads
        (some n_kv_heads) false = some (q_weight ++ k_weight ++ v_weight) := rfl
    rw [hfused]
    refine ⟨rfl, ?_, ?_, ?_, ?_⟩
    · simp only [Option.getD_some, List.length_append, hq, hk, hv]
      ring
    · simp only [Option.getD_some, if_neg (by simp : ¬ (false : Bool) = true)]
      rw [List.append_assoc, List.take_left' hq]
    · simp only [Option.getD_some, if_neg (by simp : ¬ (false : Bool) = true)]
      rw [List.append_assoc, List.drop_left' hq, List.take_left' hk]
    · simp only [Option.getD_some]
      rw [List.append_assoc, List.drop_left' hq, List.drop_left' hk]
  | true =>
    have hq2 := permute_for_rotary_some q_weight n_heads hd hn hq hhd
    have hk2 := permute_for_rotary_some k_weight n_kv_heads hd hkv hk hhd
    have hq2len : ((permute_for_rotary q_weight n_heads).getD []).length
        = n_heads * hd := by
      rw [permute_for_rotary_length q_weight n_heads hd hn hq hhd, hq]
    have hk2len : ((permute_for_rotary k_weight n_kv_heads).getD []).length
        = n_kv_heads * hd := by
      rw [permute_for_rotary_length k_weight n_kv_heads hd hkv hk hhd, hk]
    have hfused : apply_qkv_fusion q_weight k_weight v_weight n_heads
        (some n_kv_heads) true
        = some ((permute_for_rotary q_weight n_heads).getD []
            ++ (permute_for_rotary k_weight n_kv_heads).getD []
            ++ v_weight) := by
      simp only [apply_qkv_fusion, Option.getD_some]
      rw [if_pos trivial, hq2, hk2]
      simp only [Option.getD_some]
    rw [hfused]
    refine ⟨rfl, ?_, ?_, ?_, ?_⟩
    · simp only [Option.getD_some, List.length_append, hq2len, hk2len, hv]
      ring
    · simp only [Option.getD_some]
      rw [List.append_assoc, List.take_left' hq2len]
      simp
    · simp only [Option.getD_some]
      rw [List.append_assoc, List.drop_left' hq2len, List.take_left' hk2len]
      simp
    · simp only [Option.getD_some]
      rw [List.append_assoc, List.drop_left' hq2len, List.drop_left' hk2len]

end Psyche

namespace Psyche

/-- Witness for C8 at one query head, one key/value head, `head_dim = 2`
(where the rotary permutation is the identity), with rotary applied. -/
theorem c8_qkv_fusion_shape_law_witness :
    (apply_qkv_fusion [[1], [2]] [[3], [4]] [[5], [6]] 1 (some 1)
        true).isSome = true ∧
    ((apply_qkv_fusion [[1], [2]] [[3], [4]] [[5], [6]] 1 (some 1)
        true).getD []).length = (1 + 2 * 1) * 2 ∧
    ((apply_qkv_fusion [[1], [2]] [[3], [4]] [[5], [6]] 1 (some 1)
        true).getD []).take (1 * 2)
      = (if true then (permute_for_rotary [[1], [2]] 1).getD []
         else [[1], [2]]) ∧
    (((apply_qkv_fusion [[1], [2]] [[3], [4]] [[5], [6]] 1 (some 1)
        true).getD []).drop (1 * 2)).take (1 * 2)
      = (if true then (permute_for_rotary [[3], [4]] 1).getD []
         else [[3], [4]]) ∧
    (((apply_qkv_fusion [[1], [2]] [[3], [4]] [[5], [6]] 1 (some 1)
        true).getD []).drop (1 * 2)).drop (1 * 2)
      = [[5], [6]] :=
  c8_qkv_fusion_shape_law [[1], [2]] [[3], [4]] [[5], [6]] 1 1 2 true
    (by decide) (by decide) (by decide) (by decide) (by decide) (by decide)

theorem dlookup_perm {α β : Type} [DecidableEq α] (k : α)
    (l₁ l₂ : List (α × β)) (hp : l₁.Perm l₂)
    (hn : (l₁.map Prod.fst).Nodup) : dlookup k l₁ = dlookup k l₂ := by
  revert hn
  induction hp with
  | nil => intro _; rfl
  | cons x h ih =>
    intro hn
    obtain ⟨a, b⟩ := x
    have htail : ∀ t, ((a, b) :: t : List (α × β)).map Prod.fst
        = a :: t.map Prod.fst := fun t => rfl
    rw [htail] at hn
    have hn2 := (List.nodup_cons.mp hn).2
    by_cases ha : a = k
    · simp [dlookup, ha]
    · simp [dlookup, ha, ih hn2]
  | swap x y l =>
    intro hn
    obtain ⟨a1, b1⟩ := x
    obtain ⟨a2, b2⟩ := y
    have hne : a2 ≠ a1 := by
      have := (List.nodup_cons.mp hn).1
      simp only [List.map_cons, List.mem_cons] at this
      exact fun hh => this (Or.inl hh)
    by_cases h2 : a2 = k
    · have h1 : a1 ≠ k := fun hh => hne (h2.trans hh.symm)
      simp [dlookup, h1, h2]
    · by_cases h1 : a1 = k
      · simp [dlookup, h1, h2]
      · simp [dlookup, h1, h2]
  | trans h₁ h₂ ih₁ ih₂ =>
    intro hn
    have hn2 := ((h₁.map Prod.fst).nodup_iff).mp hn
    exact (ih₁ hn).trans (ih₂ hn2)

theorem controlLoop_run (store : List (String × Op)) (ops : Nat → Op) :
    ∀ (k : Nat), ∀ (j fuel : Nat) (trainer : Bool),
      k < fuel →
      dlookup (toString (j + k)) store = none →
      (∀ i, i < k → dlookup (toString (j + i)) store = some (ops (j + i))) →
      cleanRun trainer ((List.range k).map fun i => ops (j + i)) = true →
      controlLoop store fuel trainer j
        = ((List.range k).map fun i => ops (j + i), .storeMiss) := by
  intro k
  induction k with
  | zero =>
    intro j fuel trainer hfuel hmiss _ _
    match fuel, hfuel with
    | fuel + 1, _ =>
      rw [Nat.add_zero] at hmiss
      simp [controlLoop, hmiss]
  | succ k ih =>
    intro j fuel trainer hfuel hmiss hget hclean
    match fuel, hfuel with
    | fuel + 1, hfuel =>
      have h0 : dlookup (toString j) store = some (ops j) := by
        have := hget 0 (by omega)
        rwa [Nat.add_zero] at this
      have hrange : ((List.range (k + 1)).map fun i => ops (j + i))
          = ops j :: ((List.range k).map fun i => ops ((j + 1) + i)) := by
        rw [List.range_succ_eq_map, List.map_cons, List.map_map]
        refine congrArg₂ _ (by rw [Nat.add_zero]) ?_
        apply List.map_congr_left
        intro i _
        show ops (j + (i + 1)) = ops ((j + 1) + i)
        exact congrArg ops (by omega)
      have hmiss2 : dlookup (toString ((j + 1) + k)) store = none := by
        rw [show (j + 1) + k = j + (k + 1) by omega]
        exact hmiss
      have hget2 : ∀ i, i < k →
          dlookup (toString ((j + 1) + i)) store = some (ops ((j + 1) + i)) := by
        intro i hi
        rw [show (j + 1) + i = j + (i + 1) by omega]
        exact hget (i + 1) (by omega)
      rw [hrange] at hclean ⊢
      unfold controlLoop
      rw [h0]
      cases hstep : sidecarStep trainer (ops j) with
      | configured =>
        simp only [cleanRun, hstep] at hclean
        rw [ih (j + 1) fuel true (by omega) hmiss2 hget2 hclean]
        simp only [hstep]
      | ran =>
        simp only [cleanRun, hstep] at hclean
        rw [ih (j + 1) fuel trainer (by omega) hmiss2 hget2 hclean]
        simp only [hstep]
      | fatal msg =>
        simp only [cleanRun, hstep] at hclean
        exact Bool.noConfusion hclean
      | exited =>
        simp only [cleanRun, hstep] at hclean
        exact Bool.noConfusion hclean

/-- C7: operation ordering and normal exit.  The control loop of `main`
fetches operation descriptors at the string keys `"0", "1", "2", ...` by
strictly increasing integer iteration index starting at 0; for any two
stores that are permutations of each other (same key/value pairs inserted
in any order, keys distinct), it processes exactly the operations
`ops 0, ..., ops (k-1)` in index order, and when the key for the next index
`k` is absent it terminates normally (`storeMiss`, the `return` in the
`except` arm) rather than raising an error.  `cleanRun` states the claim's
premise that the `k` fetched operations themselves dispatch without raising
and without an explicit `exit`. -/
theorem c7_operation_ordering (s₁ s₂ : List (String × Op)) (ops : Nat → Op)
    (k fuel : Nat)
    (hperm : s₁.Perm s₂)
    (hnodup : (s₁.map Prod.fst).Nodup)
    (hfuel : k < fuel)
    (hmiss : dlookup (toString k) s₁ = none)
    (hops : ∀ i, i < k → dlookup (toString i) s₁ = some (ops i))
    (hclean : cleanRun false ((List.range k).map ops) = true) :
    controlLoop s₁ fuel false 0 = ((List.range k).map ops, .storeMiss) ∧
    controlLoop s₂ fuel false 0 = ((List.range k).map ops, .storeMiss) := by
  have hmap : ((List.range k).map fun i => ops (0 + i)) = (List.range k).map ops := by
    apply List.map_congr_left
    intro i _
    rw [Nat.zero_add]
  constructor
  · rw [controlLoop_run s₁ ops k 0 fuel false hfuel
      (by rw [Nat.zero_add]; exact hmiss)
      (fun i hi => by rw [Nat.zero_add]; exact hops i hi)
      (by rw [hmap]; exact hclean), hmap]
  · rw [controlLoop_run s₂ ops k 0 fuel false hfuel
      (by rw [Nat.zero_add, ← dlookup_perm (toString k) s₁ s₂ hperm hnodup]
          exact hmiss)
      (fun i hi => by
        rw [Nat.zero_add, ← dlookup_perm (toString i) s₁ s₂ hperm hnodup]
        exact hops i hi)
      (by rw [hmap]; exact hclean), hmap]

/-- Witness for C7: the same two-operation store in two insertion orders
(key "1" inserted before key "0", and the reverse); the loop processes
index 0 (a configure) then index 1 (a forward) and exits normally at the
missing key "2". -/
theorem c7_operation_ordering_witness :
    controlLoop [("1", Op.forward), ("0", Op.hyperparameters false)] 3 false 0
      = ((List.range 2).map fun i =>
          if i = 0 then Op.hyperparameters false else Op.forward, .storeMiss) ∧
    controlLoop [("0", Op.hyperparameters false), ("1", Op.forward)] 3 false 0
      = ((List.range 2).map fun i =>
          if i = 0 then Op.hyperparameters false else Op.forward, .storeMiss) :=
  c7_operation_ordering
    [("1", Op.forward), ("0", Op.hyperparameters false)]
    [("0", Op.hyperparameters false), ("1", Op.forward)]
    (fun i => if i = 0 then Op.hyperparameters false else Op.forward)
    2 3 (by decide) (by decide) (by decide) (by decide) (by decide) (by decide)

end Psyche

namespace Psyche

/-- Witness for C9 at a concrete mismatched metadata (index list has one
entry, value list is empty): the assertion fires with an empty event
trace. -/
theorem c9_metadata_mismatch_fatal_atomic_witness :
    receive_distro_results 1
      { sparse_idx_size := [[4]]
        sparse_idx_dtype := 4
        sparse_val_size := []
        sparse_val_dtype := 6
        xshape := []
        totalk := [] }
      = ([], .error .assertFail) :=
  (c9_metadata_mismatch_fatal_atomic 1
    { sparse_idx_size := [[4]]
      sparse_idx_dtype := 4
      sparse_val_size := []
      sparse_val_dtype := 6
      xshape := []
      totalk := [] }).mpr (by decide)

end Psyche
